import Mathlib

/-!
Verification of the CREATE2 address-derivation and vanity-salt-mining core of
`src/server.js` (token-creator).

The embedding models:
* Keccak-256 (the hash behind `ethers.utils.keccak256`) over byte lists,
  with 64-bit lanes represented as `Nat` reduced modulo `2 ^ 64`;
* `ethers.utils.getAddress` (EIP-55 mixed-case checksum rendering);
* `calculateCREATE2Address` (server.js lines 58-68);
* `findSaltForTermination` (server.js lines 70-96), with the random source
  `crypto.randomBytes(32)` modelled as an explicit stream `Nat → List Nat`
  indexed by the attempt counter, the `while (attempts < maxAttempts)` loop
  as structural recursion on the remaining fuel `maxAttempts.toNat`, and the
  `throw new Error(...)` on exhaustion as `Except.error` carrying the thrown
  message;
* the termination-validation and mining parts of the `/calculate-address`
  handler (lines 184-225) and the `/validate-termination` handler
  (lines 310-366).

Bytes are `Nat` values below 256; hex strings are Lean `String`s.
-/

set_option maxRecDepth 20000

/-! ### Keccak-256 (as used by ethers.utils.keccak256) -/

/-- Left rotation of a 64-bit lane represented as a `Nat` below `2 ^ 64`. -/
def rotl64 (x n : Nat) : Nat :=
  ((x <<< n) ||| (x >>> (64 - n))) % 2 ^ 64

/-- Lane lookup in a 25-lane Keccak state (row-major `x + 5 * y`). -/
def getL (s : List Nat) (i : Nat) : Nat := s.getD i 0

/-- Keccak theta step. -/
def theta (s : List Nat) : List Nat :=
  let c := (List.range 5).map fun x =>
    getL s x ^^^ getL s (x + 5) ^^^ getL s (x + 10) ^^^ getL s (x + 15) ^^^ getL s (x + 20)
  let d := (List.range 5).map fun x =>
    getL c ((x + 4) % 5) ^^^ rotl64 (getL c ((x + 1) % 5)) 1
  (List.range 25).map fun i => getL s i ^^^ getL d (i % 5)

/-- Combined rho-pi table: entry at target lane `t` is `(source lane, rotation)`. -/
def rhoPiTable : List (Nat × Nat) :=
  [(0, 0), (6, 44), (12, 43), (18, 21), (24, 14),
   (3, 28), (9, 20), (10, 3), (16, 45), (22, 61),
   (1, 1), (7, 6), (13, 25), (19, 8), (20, 18),
   (4, 27), (5, 36), (11, 10), (17, 15), (23, 56),
   (2, 62), (8, 55), (14, 39), (15, 41), (21, 2)]

/-- Keccak rho and pi steps. -/
def rhoPi (s : List Nat) : List Nat :=
  rhoPiTable.map fun p => rotl64 (getL s p.1) p.2

/-- Keccak chi step; the 64-bit complement is a xor with `2 ^ 64 - 1`. -/
def chi (s : List Nat) : List Nat :=
  (List.range 25).map fun i =>
    let x := i % 5
    let y := i - x
    getL s i ^^^ ((getL s ((x + 1) % 5 + y) ^^^ (2 ^ 64 - 1)) &&& getL s ((x + 2) % 5 + y))

/-- Keccak-f[1600] round constants. -/
def roundConstants : List Nat :=
  [0x0000000000000001, 0x0000000000008082, 0x800000000000808a, 0x8000000080008000,
   0x000000000000808b, 0x0000000080000001, 0x8000000080008081, 0x8000000000008009,
   0x000000000000008a, 0x0000000000000088, 0x0000000080008009, 0x000000008000000a,
   0x000000008000808b, 0x800000000000008b, 0x8000000000008089, 0x8000000000008003,
   0x8000000000008002, 0x8000000000000080, 0x000000000000800a, 0x800000008000000a,
   0x8000000080008081, 0x8000000000008080, 0x0000000080000001, 0x8000000080008008]

/-- Keccak iota step. -/
def iotaStep (rc : Nat) (s : List Nat) : List Nat :=
  match s with
  | [] => []
  | a :: rest => (a ^^^ rc) :: rest

/-- One Keccak-f round. -/
def keccakRound (s : List Nat) (rc : Nat) : List Nat := iotaStep rc (chi (rhoPi (theta s)))

/-- The full Keccak-f[1600] permutation (24 rounds). -/
def keccakF (s : List Nat) : List Nat := roundConstants.foldl keccakRound s

/-- Original Keccak multi-rate padding (`0x01 .. 0x80`), rate 136 bytes.
This is the padding used by Ethereum's keccak256 (not the SHA-3 `0x06` one). -/
def pad101 (msg : List Nat) : List Nat :=
  let padLen := 136 - msg.length % 136
  if padLen = 1 then msg ++ [0x81]
  else msg ++ [0x01] ++ List.replicate (padLen - 2) 0 ++ [0x80]

/-- Read lane `i` of a 136-byte block, 8 bytes little-endian. -/
def loadLane (block : List Nat) (i : Nat) : Nat :=
  (List.range 8).foldr (fun j acc => acc * 256 + block.getD (8 * i + j) 0) 0

/-- Absorb one 136-byte block into the state and permute. -/
def absorbBlock (s block : List Nat) : List Nat :=
  keccakF ((List.range 25).map fun i =>
    getL s i ^^^ (if i < 17 then loadLane block i else 0))

/-- Absorb `n` consecutive 136-byte chunks of `msg`. -/
def absorbChunks : Nat → List Nat → List Nat → List Nat
  | 0, s, _ => s
  | n + 1, s, msg => absorbChunks n (absorbBlock s (msg.take 136)) (msg.drop 136)

/-- The 8 little-endian bytes of a 64-bit lane. -/
def laneBytes (x : Nat) : List Nat :=
  (List.range 8).map fun j => (x >>> (8 * j)) % 256

/-- Keccak-256 digest (32 bytes) of a byte list. -/
def keccak256 (msg : List Nat) : List Nat :=
  let p := pad101 msg
  let s := absorbChunks (p.length / 136) (List.replicate 25 0) p
  laneBytes (getL s 0) ++ laneBytes (getL s 1) ++ laneBytes (getL s 2) ++ laneBytes (getL s 3)

/-! ### Hex rendering and JS string helpers -/

/-- Lowercase hex digit for a value below 16: `0`-`9` then `a`-`f` (the string
`0123456789abcdef` indexed by `n`, built from the ASCII codes). -/
def hexChar (n : Nat) : Char :=
  if n < 10 then Char.ofNat (48 + n) else Char.ofNat (87 + n)

/-- Lowercase hex characters of a byte list, two characters per byte. -/
def bytesToHexL : List Nat → List Char
  | [] => []
  | b :: bs => hexChar (b / 16 % 16) :: hexChar (b % 16) :: bytesToHexL bs

/-- Lowercase hex string of a byte list (ethers hexlify without the prefix). -/
def bytesToHex (bs : List Nat) : String := String.mk (bytesToHexL bs)

/-- JavaScript `String.prototype.toLowerCase` on the ASCII strings used here. -/
def jsToLower (s : String) : String := String.mk (s.data.map Char.toLower)

/-- JavaScript `String.prototype.endsWith`: the argument is a suffix of the string. -/
def jsEndsWith (s t : String) : Bool := t.data.isSuffixOf s.data

/-- JavaScript `s.slice(-n)` for `n ≤ s.length`: the last `n` characters. -/
def jsSliceLast (s : String) (n : Nat) : String :=
  String.mk (s.data.drop (s.data.length - n))

/-! ### ethers.utils.getAddress (EIP-55 checksum) and calculateCREATE2Address -/

/-- Nibble `i` of a hash byte list: high nibble of byte `i / 2` for even `i`,
low nibble for odd `i`. -/
def nibbleOf (hashed : List Nat) (i : Nat) : Nat :=
  if i % 2 = 0 then hashed.getD (i / 2) 0 / 16 else hashed.getD (i / 2) 0 % 16

/-- Uppercase a hex character when its checksum nibble is 8 or more. -/
def checksumChar (c : Char) (nib : Nat) : Char :=
  if 8 ≤ nib then c.toUpper else c

/-- `ethers.utils.getAddress`: EIP-55 mixed-case checksum rendering of a
`0x`-prefixed 40-hex-character address string. The 40 lowercase characters are
hashed as ASCII bytes and each letter is uppercased when the matching nibble of
the digest is 8 or more. -/
def getAddress (hexStr : String) : String :=
  let chars := (hexStr.data.map Char.toLower).drop 2
  let hashed := keccak256 (chars.map Char.toNat)
  "0x" ++ String.mk ((List.range 40).map fun i => checksumChar (chars.getD i '0') (nibbleOf hashed i))

/-- `calculateCREATE2Address` (server.js lines 58-68): concatenate
`0xff || deployer || salt || bytecodeHash`, hash with keccak256, take
`hash.slice(-40)` of the `0x`-prefixed digest hex string, and render with
`ethers.utils.getAddress`. The three inputs are the byte sequences that
`ethers.utils.concat` parses out of the caller's hex strings. -/
def calculateCREATE2Address (deployerAddress salt bytecodeHash : List Nat) : String :=
  let concatenated := [0xff] ++ deployerAddress ++ salt ++ bytecodeHash
  let hash := "0x" ++ bytesToHex (keccak256 concatenated)
  getAddress ("0x" ++ jsSliceLast hash 40)

/-- Reference CREATE2 definition, written from the spec's words: the low 20
bytes of the Keccak-256 digest of the 85-byte concatenation
`0xff || deployer || salt || initCodeHash`, rendered with the standard EVM
mixed-case checksum encoding. -/
def create2Reference (deployer salt initCodeHash : List Nat) : String :=
  getAddress ("0x" ++ bytesToHex ((keccak256 ([0xff] ++ deployer ++ salt ++ initCodeHash)).drop 12))

/-! ### findSaltForTermination (server.js lines 70-96) -/

/-- The record returned by a successful `findSaltForTermination` call:
`{ salt, address, attempts: attempts + 1 }`. -/
structure MiningResult where
  salt : String
  address : String
  attempts : Nat
deriving DecidableEq, Repr

/-- The body of the `while (attempts < maxAttempts)` loop of
`findSaltForTermination`: draw the next random 32-byte value from the stream,
derive the candidate address, return on a lowercase suffix match, otherwise
continue with `attempts + 1`. `fuel` is the number of remaining iterations;
running out of fuel models the `throw new Error(...)` at line 95. -/
def findSaltGo (stream : Nat → List Nat) (deployerAddress bytecodeHash : List Nat)
    (termination : String) : Nat → Nat → Except String MiningResult
  | 0, _ => .error "Maximum attempts reached without finding suitable salt"
  | fuel + 1, attempts =>
    if jsEndsWith (jsToLower (calculateCREATE2Address deployerAddress (stream attempts) bytecodeHash))
        termination then
      .ok ⟨"0x" ++ bytesToHex (stream attempts),
        calculateCREATE2Address deployerAddress (stream attempts) bytecodeHash,
        attempts + 1⟩
    else
      findSaltGo stream deployerAddress bytecodeHash termination fuel (attempts + 1)

/-- `findSaltForTermination` (server.js lines 70-96). `stream` models
`crypto.randomBytes(32)`, giving the bytes drawn at each attempt index;
`maxAttempts` is the JS number passed by the caller (an integer here), and the
loop runs `maxAttempts.toNat` times, matching `while (attempts < maxAttempts)`
from `attempts = 0`. -/
def findSaltForTermination (stream : Nat → List Nat) (deployerAddress bytecodeHash : List Nat)
    (desiredTermination : String) (maxAttempts : Int) : Except String MiningResult :=
  findSaltGo stream deployerAddress bytecodeHash (jsToLower desiredTermination) maxAttempts.toNat 0

/-- Number of loop iterations (salt draws) `findSaltGo` executes. -/
def loopIterations (stream : Nat → List Nat) (deployerAddress bytecodeHash : List Nat)
    (termination : String) : Nat → Nat → Nat
  | 0, _ => 0
  | fuel + 1, attempts =>
    if jsEndsWith (jsToLower (calculateCREATE2Address deployerAddress (stream attempts) bytecodeHash))
        termination then 1
    else 1 + loopIterations stream deployerAddress bytecodeHash termination fuel (attempts + 1)

/-- Number of attempts a `findSaltForTermination` call actually performs. -/
def performedIterations (stream : Nat → List Nat) (deployerAddress bytecodeHash : List Nat)
    (desiredTermination : String) (maxAttempts : Int) : Nat :=
  loopIterations stream deployerAddress bytecodeHash (jsToLower desiredTermination) maxAttempts.toNat 0

/-! ### The /calculate-address and /validate-termination handlers -/

/-- The attempt cap the `/calculate-address` handler passes to the search loop:
`Math.min(maxAttempts, 1000000)` (server.js line 209). -/
def handlerCap (maxAttempts : Int) : Int := min maxAttempts 1000000

/-- Character class of the JS regexes `[^0-9a-f]` / `[0-9a-f]`. -/
def isHexLowerDigit (c : Char) : Bool :=
  (decide ('0' ≤ c) && decide (c ≤ '9')) || (decide ('a' ≤ c) && decide (c ≤ 'f'))

/-- `termination.toLowerCase().replace(/[^0-9a-f]/g, '')` as used by both
handlers. -/
def cleanTermination (s : String) : String :=
  String.mk ((s.data.map Char.toLower).filter isHexLowerDigit)

/-- The JS test `/^[0-9a-f]+$/.test(s)`: nonempty and all hex characters. -/
def regexTestHexPlus (s : String) : Bool :=
  !s.data.isEmpty && s.data.all isHexLowerDigit

/-- `isValid` from the `/validate-termination` handler (server.js line 322). -/
def terminationIsValid (cleaned : String) : Bool :=
  regexTestHexPlus cleaned && decide (0 < cleaned.length) && decide (cleaned.length ≤ 8)

/-- Outcomes of the `/calculate-address` handler (server.js lines 184-225):
the missing-field 400, the invalid-termination 400, the success payload
`{ ...result, termination }`, and the catch-all 500 carrying the thrown
error message. -/
inductive CalcResponse where
  | missingFields
  | invalidTermination
  | mined (result : MiningResult) (termination : String)
  | failed (message : String)
deriving DecidableEq, Repr

/-- The `/calculate-address` handler (server.js lines 184-225): require the
three fields, clean and bound-check the termination, then run
`findSaltForTermination` with the cap clamped by `Math.min(maxAttempts, 1000000)`;
a thrown error becomes the 500 response. -/
def calculateAddressHandler (stream : Nat → List Nat) (deployerAddress bytecodeHash : List Nat)
    (desiredTermination : String) (maxAttempts : Int) : CalcResponse :=
  if deployerAddress = [] ∨ bytecodeHash = [] ∨ desiredTermination = "" then .missingFields
  else if (cleanTermination desiredTermination).length = 0 ∨
      8 < (cleanTermination desiredTermination).length then .invalidTermination
  else
    match findSaltForTermination stream deployerAddress bytecodeHash
        (cleanTermination desiredTermination) (handlerCap maxAttempts) with
    | .ok result => .mined result (cleanTermination desiredTermination)
    | .error e => .failed e

/-- The body of the `/validate-termination` 200 response. -/
structure DifficultyReport where
  valid : Bool
  cleaned : String
  difficulty : String
  estimatedTime : String
  maxLength : Nat
deriving DecidableEq, Repr

/-- Outcomes of the `/validate-termination` handler: the missing-field 400 and
the 200 report. -/
inductive ValidateResponse where
  | missingTermination
  | report (r : DifficultyReport)
deriving DecidableEq, Repr

/-- The difficulty / estimated-time ladder of the `/validate-termination`
handler (server.js lines 332-347), as a function of
`attempts = Math.pow(16, cleaned.length)`. -/
def difficultyOf (attempts : Nat) : String × String :=
  if attempts < 256 then ("Very Easy", "Instant")
  else if attempts < 4096 then ("Easy", "Few seconds")
  else if attempts < 65536 then ("Medium", "Few minutes")
  else if attempts < 1048576 then ("Hard", "Few hours")
  else ("Very Hard", "Days or weeks")

/-- The `/validate-termination` handler (server.js lines 310-366): 400 when the
termination is missing, otherwise a 200 report whose difficulty fields are
`Unknown` when the cleaned termination fails validation. -/
def validateTermination (termination : String) : ValidateResponse :=
  if termination = "" then .missingTermination
  else if terminationIsValid (cleanTermination termination) then
    .report ⟨true, cleanTermination termination,
      (difficultyOf (16 ^ (cleanTermination termination).length)).1,
      (difficultyOf (16 ^ (cleanTermination termination).length)).2, 8⟩
  else .report ⟨false, cleanTermination termination, "Unknown", "Unknown", 8⟩

/-- Whether a `/validate-termination` outcome is an error response (a 400). -/
def validateResponseIsError : ValidateResponse → Bool
  | .missingTermination => true
  | .report _ => false

/-! ### Spec-side definitions used to state the claims -/

/-- Difficulty tier from the spec's words: thresholds `2 ^ 8`, `2 ^ 12`,
`2 ^ 16`, `2 ^ 20` on `expectedAttempts = 16 ^ length`. -/
def specTierOfLen (l : Nat) : String :=
  if 16 ^ l < 2 ^ 8 then "Very Easy"
  else if 16 ^ l < 2 ^ 12 then "Easy"
  else if 16 ^ l < 2 ^ 16 then "Medium"
  else if 16 ^ l < 2 ^ 20 then "Hard"
  else "Very Hard"

/-- Ordinal rank of the difficulty tiers, for the monotonicity claim. -/
def tierRank (t : String) : Nat :=
  if t = "Very Easy" then 0
  else if t = "Easy" then 1
  else if t = "Medium" then 2
  else if t = "Hard" then 3
  else if t = "Very Hard" then 4
  else 5

/-! ### Sanity checks of the Keccak embedding against standard vectors -/

/-- Keccak-256 of the empty byte string is the well-known
`c5d2460186f7233c927e7db2dcc703c0e500b653ca82273b7bfad8045d85a470`. -/
theorem keccak256_empty_vector :
    bytesToHex (keccak256 []) =
      "c5d2460186f7233c927e7db2dcc703c0e500b653ca82273b7bfad8045d85a470" := by
  decide

/-- Keccak-256 of the ASCII string `abc` matches the standard vector. -/
theorem keccak256_abc_vector :
    bytesToHex (keccak256 [0x61, 0x62, 0x63]) =
      "4e03657aea45a94fc7d47ba826c8d667c0d1e6e33a64a036ec44f58fa12d6c45" := by
  decide

/-! ### Structural lemmas about the embedding -/

/-- A Keccak-256 digest always has 32 bytes. -/
theorem keccak256_length (msg : List Nat) : (keccak256 msg).length = 32 := by
  simp [keccak256, laneBytes]

/-- Hex rendering yields two characters per byte. -/
theorem bytesToHexL_length (bs : List Nat) : (bytesToHexL bs).length = 2 * bs.length := by
  induction bs with
  | nil => rfl
  | cons b bs ih => simp [bytesToHexL, ih]; omega

/-- Dropping `k` bytes drops `2 * k` hex characters. -/
theorem bytesToHexL_drop (k : Nat) (bs : List Nat) :
    bytesToHexL (bs.drop k) = (bytesToHexL bs).drop (2 * k) := by
  induction k generalizing bs with
  | zero => simp
  | succ n ih =>
    cases bs with
    | nil => simp [bytesToHexL]
    | cons b bs =>
      rw [List.drop_succ_cons, ih, bytesToHexL]
      have h2 : 2 * (n + 1) = 2 * n + 1 + 1 := by omega
      rw [h2, List.drop_succ_cons, List.drop_succ_cons]

/-- The last 40 characters of the `0x`-prefixed 64-character digest hex string
are exactly the hex rendering of the low 20 digest bytes. -/
theorem slice_hash_eq (K : List Nat) (hK : K.length = 32) :
    jsSliceLast ("0x" ++ bytesToHex K) 40 = bytesToHex (K.drop 12) := by
  unfold jsSliceLast bytesToHex
  have hdata : ("0x" ++ String.mk (bytesToHexL K)).data = '0' :: 'x' :: bytesToHexL K := by
    rw [String.data_append]
    rfl
  rw [hdata]
  have hlen : ('0' :: 'x' :: bytesToHexL K).length = 66 := by
    simp [bytesToHexL_length, hK]
  rw [hlen]
  have h26 : (66 : Nat) - 40 = 24 + 1 + 1 := by omega
  rw [h26, List.drop_succ_cons, List.drop_succ_cons]
  rw [bytesToHexL_drop 12 K]

/-- `calculateCREATE2Address` agrees with the spec's reference CREATE2
definition on all byte-list inputs. -/
theorem calculateCREATE2Address_eq_reference (d s h : List Nat) :
    calculateCREATE2Address d s h = create2Reference d s h := by
  simp only [calculateCREATE2Address, create2Reference]
  rw [slice_hash_eq _ (keccak256_length _)]

/-- The character list underlying a `getAddress` result. -/
theorem getAddress_data (x : String) :
    (getAddress x).data = '0' :: 'x' :: ((List.range 40).map fun i =>
      checksumChar (((x.data.map Char.toLower).drop 2).getD i '0')
        (nibbleOf (keccak256 (((x.data.map Char.toLower).drop 2).map Char.toNat)) i)) := rfl

/-- A derived address string always has 42 characters (`0x` plus 40 hex). -/
theorem calculateCREATE2Address_data_length (d s h : List Nat) :
    (calculateCREATE2Address d s h).data.length = 42 := by
  unfold calculateCREATE2Address
  rw [getAddress_data]
  simp

/-- Everything a successful run of the search loop guarantees: the attempts
field counts from the starting value, the returned address passes the suffix
check, and it is the address derived from the salt drawn at attempt
`r.attempts - 1`. -/
theorem findSaltGo_ok (stream : Nat → List Nat) (d h : List Nat) (t : String) :
    ∀ fuel attempts r, findSaltGo stream d h t fuel attempts = .ok r →
      (attempts + 1 ≤ r.attempts ∧ r.attempts ≤ attempts + fuel) ∧
      jsEndsWith (jsToLower r.address) t = true ∧
      r.address = calculateCREATE2Address d (stream (r.attempts - 1)) h := by
  intro fuel
  induction fuel with
  | zero => intro a r hr; simp [findSaltGo] at hr
  | succ n ih =>
    intro a r hr
    rw [findSaltGo] at hr
    split at hr
    · rename_i hc
      cases hr
      refine ⟨⟨Nat.le_refl _, ?_⟩, by simpa using hc, by simp⟩
      show a + 1 ≤ a + (n + 1)
      omega
    · obtain ⟨⟨h1, h2⟩, h3, h4⟩ := ih (a + 1) r hr
      exact ⟨⟨by omega, by omega⟩, h3, h4⟩

/-- On exhaustion the loop throws the fixed message and has performed exactly
`fuel` iterations. -/
theorem findSaltGo_error (stream : Nat → List Nat) (d h : List Nat) (t : String) :
    ∀ fuel attempts e, findSaltGo stream d h t fuel attempts = .error e →
      e = "Maximum attempts reached without finding suitable salt" ∧
      loopIterations stream d h t fuel attempts = fuel := by
  intro fuel
  induction fuel with
  | zero =>
    intro a e he
    rw [findSaltGo] at he
    cases he
    exact ⟨rfl, rfl⟩
  | succ n ih =>
    intro a e he
    rw [findSaltGo] at he
    split at he
    · cases he
    · rename_i hc
      obtain ⟨h1, h2⟩ := ih (a + 1) e he
      refine ⟨h1, ?_⟩
      rw [loopIterations, if_neg hc, h2]
      omega

/-- The loop never performs more iterations than its fuel. -/
theorem loopIterations_le (stream : Nat → List Nat) (d h : List Nat) (t : String) :
    ∀ fuel attempts, loopIterations stream d h t fuel attempts ≤ fuel := by
  intro fuel
  induction fuel with
  | zero => intro a; simp [loopIterations]
  | succ n ih =>
    intro a
    rw [loopIterations]
    split
    · omega
    · have := ih (a + 1)
      omega

/-- A suffix of at most 8 characters of a 42-character string is still a
suffix after the 2-character `0x` prefix is removed. -/
theorem suffix_drop_two {t l : List Char} (hs : t <:+ l) (hl : l.length = 42)
    (ht : t.length ≤ 8) : t <:+ l.drop 2 := by
  refine List.suffix_of_suffix_length_le hs (List.drop_suffix 2 l) ?_
  simp [hl]
  omega

/-! ### Claim C1 -/

/-- C1: for every well-formed 20-byte deployer, 32-byte salt and 32-byte
init-code hash, `calculateCREATE2Address` equals the CREATE2 reference
definition (the checksummed low 20 bytes, i.e. last 40 hex characters, of the
Keccak-256 digest of `0xff || deployer || salt || initCodeHash`), and on the
all-zero deployer, the all-zero salt and the Keccak-256 hash of empty bytecode
it equals the standard reference test vector
`0xE33C0C7F7df4809055C3ebA6c09CFe4BaF1BD9e0` (EIP-1014, empty init code). -/
theorem create2_address_matches_reference (d s h : List Nat)
    (hd : d.length = 20) (hs : s.length = 32) (hh : h.length = 32) :
    calculateCREATE2Address d s h = create2Reference d s h ∧
    calculateCREATE2Address (List.replicate 20 0) (List.replicate 32 0) (keccak256 []) =
      "0xE33C0C7F7df4809055C3ebA6c09CFe4BaF1BD9e0" := by
  refine ⟨calculateCREATE2Address_eq_reference d s h, ?_⟩
  decide

/-- Witness for C1 at the concrete zero-deployer, zero-salt, empty-bytecode
input. -/
theorem create2_address_matches_reference_witness :
    calculateCREATE2Address (List.replicate 20 0) (List.replicate 32 0) (keccak256 []) =
      create2Reference (List.replicate 20 0) (List.replicate 32 0) (keccak256 []) ∧
    calculateCREATE2Address (List.replicate 20 0) (List.replicate 32 0) (keccak256 []) =
      "0xE33C0C7F7df4809055C3ebA6c09CFe4BaF1BD9e0" :=
  create2_address_matches_reference (List.replicate 20 0) (List.replicate 32 0) (keccak256 [])
    (by simp) (by simp) (keccak256_length [])

/-! ### Claim C2 -/

/-- C2: every MiningResult returned by the mining operation with a validated
termination `T` (length 1-8, already lowercase) has an address whose lowercase
rendering ends with exactly `T`; and since the window of at most 8 trailing
characters is strictly shorter than the 40 hex digits, the suffix match still
holds after the leading `0x` prefix is removed. -/
theorem mining_result_suffix_correct (stream : Nat → List Nat) (d h : List Nat)
    (T : String) (cap : Int) (r : MiningResult)
    (h1 : 1 ≤ T.length) (h8 : T.length ≤ 8) (hlow : jsToLower T = T)
    (hok : findSaltForTermination stream d h T cap = .ok r) :
    jsEndsWith (jsToLower r.address) T = true ∧
    jsEndsWith (String.mk ((jsToLower r.address).data.drop 2)) T = true := by
  unfold findSaltForTermination at hok
  rw [hlow] at hok
  obtain ⟨-, hends, haddr⟩ := findSaltGo_ok stream d h T _ _ r hok
  refine ⟨hends, ?_⟩
  unfold jsEndsWith at hends ⊢
  rw [List.isSuffixOf_iff_suffix] at hends ⊢
  have hlen : (jsToLower r.address).data.length = 42 := by
    show (r.address.data.map Char.toLower).length = 42
    rw [List.length_map, haddr, calculateCREATE2Address_data_length]
  have ht : T.data.length ≤ 8 := h8
  exact suffix_drop_two hends hlen ht

/-- Witness for C2: a concrete one-attempt run (constant all-zero salts,
termination `f`) that succeeds, with the returned address checked. -/
theorem mining_result_suffix_correct_witness :
    jsEndsWith (jsToLower "0xFFc4f52f884a02bCd5716744cD622127366F2edf") "f" = true ∧
    jsEndsWith (String.mk
      ((jsToLower "0xFFc4f52f884a02bCd5716744cD622127366F2edf").data.drop 2)) "f" = true :=
  mining_result_suffix_correct (fun _ => List.replicate 32 0) (List.replicate 20 0)
    (List.replicate 32 0) "f" 1
    ⟨"0x0000000000000000000000000000000000000000000000000000000000000000",
     "0xFFc4f52f884a02bCd5716744cD622127366F2edf", 1⟩
    (by decide) (by decide) (by decide) rfl

/-! ### Claim C3 -/

/-- C3: with a positive attemptCap, a returned MiningResult has its attempts
field in `[1, attemptCap]`, and on exhaustion the number of attempts actually
performed equals attemptCap exactly. -/
theorem mining_attempt_accounting (stream : Nat → List Nat) (d h : List Nat)
    (t : String) (cap : Int) (hcap : 1 ≤ cap) :
    (∀ r, findSaltForTermination stream d h t cap = .ok r →
        1 ≤ r.attempts ∧ (r.attempts : Int) ≤ cap) ∧
    (∀ e, findSaltForTermination stream d h t cap = .error e →
        (performedIterations stream d h t cap : Int) = cap) := by
  constructor
  · intro r hr
    unfold findSaltForTermination at hr
    obtain ⟨⟨ha1, ha2⟩, -, -⟩ := findSaltGo_ok stream d h (jsToLower t) _ _ r hr
    omega
  · intro e he
    unfold findSaltForTermination at he
    obtain ⟨-, hiter⟩ := findSaltGo_error stream d h (jsToLower t) _ _ e he
    unfold performedIterations
    omega

/-- Witness for C3: the concrete one-attempt success run has attempts = 1,
inside the `[1, attemptCap]` interval. -/
theorem mining_attempt_accounting_witness :
    1 ≤ (MiningResult.mk
        "0x0000000000000000000000000000000000000000000000000000000000000000"
        "0xFFc4f52f884a02bCd5716744cD622127366F2edf" 1).attempts ∧
    ((MiningResult.mk
        "0x0000000000000000000000000000000000000000000000000000000000000000"
        "0xFFc4f52f884a02bCd5716744cD622127366F2edf" 1).attempts : Int) ≤ 1 :=
  (mining_attempt_accounting (fun _ => List.replicate 32 0) (List.replicate 20 0)
      (List.replicate 32 0) "f" 1 (by decide)).1
    ⟨"0x0000000000000000000000000000000000000000000000000000000000000000",
     "0xFFc4f52f884a02bCd5716744cD622127366F2edf", 1⟩ rfl

/-! ### Claim C7 -/

/-- C7: the `/calculate-address` handler clamps the caller's attemptCap at the
system-wide maximum 1,000,000 (`handlerCap` is `Math.min(maxAttempts, 1000000)`),
and the search loop run with that cap performs at most
`min(attemptCap, 1000000)` attempts, hence at most 1,000,000, however large the
caller's value. -/
theorem attempt_cap_clamped (stream : Nat → List Nat) (d h : List Nat) (t : String)
    (m : Int) (hm : 0 ≤ m) :
    handlerCap m = min m 1000000 ∧
    (performedIterations stream d h t (handlerCap m) : Int) ≤ min m 1000000 ∧
    (performedIterations stream d h t (handlerCap m) : Int) ≤ 1000000 := by
  have hle := loopIterations_le stream d h (jsToLower t) (handlerCap m).toNat 0
  unfold performedIterations
  unfold handlerCap at *
  refine ⟨rfl, ?_, ?_⟩ <;> omega

/-- Witness for C7 at a concrete cap of 5. -/
theorem attempt_cap_clamped_witness :
    handlerCap 5 = min 5 1000000 ∧
    (performedIterations (fun _ => List.replicate 32 0) (List.replicate 20 0)
      (List.replicate 32 0) "9" (handlerCap 5) : Int) ≤ min 5 1000000 ∧
    (performedIterations (fun _ => List.replicate 32 0) (List.replicate 20 0)
      (List.replicate 32 0) "9" (handlerCap 5) : Int) ≤ 1000000 :=
  attempt_cap_clamped (fun _ => List.replicate 32 0) (List.replicate 20 0)
    (List.replicate 32 0) "9" 5 (by decide)

/-! ### Claim C10 -/

/-- C10: called with a non-positive attemptCap (which the `/calculate-address`
handler does not rule out), the loop body never runs: no salt is drawn and no
address is derived (the outcome does not depend on the random stream), and the
call fails immediately with the exhaustion error after 0 attempts, outside the
documented `[1, attemptCap]` range. -/
theorem nonpositive_cap_immediate_exhaustion (stream stream2 : Nat → List Nat)
    (d h : List Nat) (t : String) (cap : Int) (hcap : cap ≤ 0) :
    findSaltForTermination stream d h t cap =
      .error "Maximum attempts reached without finding suitable salt" ∧
    performedIterations stream d h t cap = 0 ∧
    findSaltForTermination stream d h t cap = findSaltForTermination stream2 d h t cap := by
  have h0 : cap.toNat = 0 := by omega
  unfold findSaltForTermination performedIterations
  rw [h0]
  exact ⟨rfl, rfl, rfl⟩

/-- Witness for C10 at the concrete cap -5, with two different streams. -/
theorem nonpositive_cap_immediate_exhaustion_witness :
    findSaltForTermination (fun _ => []) (List.replicate 20 0) (List.replicate 32 0)
      "ab" (-5) =
      .error "Maximum attempts reached without finding suitable salt" ∧
    performedIterations (fun _ => []) (List.replicate 20 0) (List.replicate 32 0)
      "ab" (-5) = 0 ∧
    findSaltForTermination (fun _ => []) (List.replicate 20 0) (List.replicate 32 0)
      "ab" (-5) =
      findSaltForTermination (fun _ => [1]) (List.replicate 20 0) (List.replicate 32 0)
      "ab" (-5) :=
  nonpositive_cap_immediate_exhaustion (fun _ => []) (fun _ => [1]) (List.replicate 20 0)
    (List.replicate 32 0) "ab" (-5) (by decide)

/-! ### Claim C4 -/

set_option maxHeartbeats 4000000 in
/-- C4 counterexample: two exhausted runs that performed different numbers of
attempts (1 and 2) surface the identical error value, so the attempt count is
not part of the error result. -/
theorem exhaustion_error_omits_attempt_count_cex :
    findSaltForTermination (fun _ => List.replicate 32 0) (List.replicate 20 0)
      (List.replicate 32 0) "9" 1 =
      .error "Maximum attempts reached without finding suitable salt" ∧
    findSaltForTermination (fun _ => List.replicate 32 0) (List.replicate 20 0)
      (List.replicate 32 0) "9" 2 =
      .error "Maximum attempts reached without finding suitable salt" ∧
    performedIterations (fun _ => List.replicate 32 0) (List.replicate 20 0)
      (List.replicate 32 0) "9" 1 = 1 ∧
    performedIterations (fun _ => List.replicate 32 0) (List.replicate 20 0)
      (List.replicate 32 0) "9" 2 = 2 :=
  ⟨rfl, rfl, by decide, by decide⟩

/-- C4 amended: on exhaustion the mining operation throws an error whose
payload is the fixed message `Maximum attempts reached without finding
suitable salt`; the number of attempts performed (which always equals the cap)
is not included in the error. -/
theorem exhaustion_error_fixed_message (stream : Nat → List Nat) (d h : List Nat)
    (t : String) (cap : Int) (e : String)
    (he : findSaltForTermination stream d h t cap = .error e) :
    e = "Maximum attempts reached without finding suitable salt" ∧
    performedIterations stream d h t cap = cap.toNat := by
  unfold findSaltForTermination at he
  obtain ⟨h1, h2⟩ := findSaltGo_error stream d h (jsToLower t) _ _ e he
  exact ⟨h1, h2⟩

/-- Witness for C4's amended statement on a concrete exhausted run. -/
theorem exhaustion_error_fixed_message_witness :
    "Maximum attempts reached without finding suitable salt" =
      "Maximum attempts reached without finding suitable salt" ∧
    performedIterations (fun _ => List.replicate 32 0) (List.replicate 20 0)
      (List.replicate 32 0) "9" 1 = (1 : Int).toNat :=
  exhaustion_error_fixed_message (fun _ => List.replicate 32 0) (List.replicate 20 0)
    (List.replicate 32 0) "9" 1
    "Maximum attempts reached without finding suitable salt" rfl

/-! ### Claim C5 -/

/-- C5 counterexample: the termination `zz` cleans to the empty string, so it
is invalid; the `/calculate-address` handler rejects it with the
invalid-termination error, but the `/validate-termination` handler answers
with a 200 report (`valid: false`, difficulty `Unknown`), not an InvalidInput
error. -/
theorem validation_boundary_cex :
    cleanTermination "zz" = "" ∧
    calculateAddressHandler (fun _ => List.replicate 32 0) (List.replicate 20 0)
      (List.replicate 32 0) "zz" 1000 = .invalidTermination ∧
    validateTermination "zz" = .report ⟨false, "", "Unknown", "Unknown", 8⟩ ∧
    validateResponseIsError (validateTermination "zz") = false :=
  ⟨rfl, rfl, rfl, rfl⟩

/-- C5 amended: a present termination that cleans to the empty string or to
more than 8 characters makes the `/calculate-address` handler answer with the
invalid-termination error before any search starts, while the
`/validate-termination` handler answers with a report marked invalid
(difficulty `Unknown`) rather than an error. -/
theorem validation_boundary_amended (stream : Nat → List Nat) (d h : List Nat)
    (m : Int) (s : String) (hd : d ≠ []) (hh : h ≠ []) (hs : s ≠ "")
    (hbad : cleanTermination s = "" ∨ 8 < (cleanTermination s).length) :
    calculateAddressHandler stream d h s m = .invalidTermination ∧
    validateTermination s = .report ⟨false, cleanTermination s, "Unknown", "Unknown", 8⟩ := by
  constructor
  · have hcond : (cleanTermination s).length = 0 ∨ 8 < (cleanTermination s).length := by
      rcases hbad with hb | hb
      · left; rw [hb]; decide
      · right; exact hb
    unfold calculateAddressHandler
    rw [if_neg (by simp [hd, hh, hs]), if_pos hcond]
  · unfold validateTermination
    rw [if_neg hs, if_neg]
    intro hcontra
    rcases hbad with hb | hb
    · rw [hb] at hcontra
      exact absurd hcontra (by decide)
    · simp only [terminationIsValid, Bool.and_eq_true, decide_eq_true_eq] at hcontra
      omega

/-- Witness for C5's amended statement at the concrete termination `zz`. -/
theorem validation_boundary_amended_witness :
    calculateAddressHandler (fun _ => List.replicate 32 0) (List.replicate 20 0)
      (List.replicate 32 0) "zz" 7 = .invalidTermination ∧
    validateTermination "zz" =
      .report ⟨false, cleanTermination "zz", "Unknown", "Unknown", 8⟩ :=
  validation_boundary_amended (fun _ => List.replicate 32 0) (List.replicate 20 0)
    (List.replicate 32 0) 7 "zz" (by decide) (by decide) (by decide)
    (Or.inl (by decide))

/-! ### Claim C8 -/

/-- The handler's difficulty thresholds on `16 ^ length` coincide with the
spec's `2 ^ 8`, `2 ^ 12`, `2 ^ 16`, `2 ^ 20` thresholds. -/
theorem difficultyOf_pow_eq_specTier (l : Nat) :
    (difficultyOf (16 ^ l)).1 = specTierOfLen l := by
  have h8 : (2 : Nat) ^ 8 = 256 := by norm_num
  have h12 : (2 : Nat) ^ 12 = 4096 := by norm_num
  have h16 : (2 : Nat) ^ 16 = 65536 := by norm_num
  have h20 : (2 : Nat) ^ 20 = 1048576 := by norm_num
  unfold difficultyOf specTierOfLen
  rw [h8, h12, h16, h20]
  split_ifs <;> rfl

/-- The tier rank of the spec ladder is `min (l - 1) 4`, hence monotone in the
termination length. -/
theorem tierRank_specTier (l : Nat) : tierRank (specTierOfLen l) = min (l - 1) 4 := by
  rcases lt_or_ge l 5 with h | h
  · interval_cases l <;> decide
  · have h5 : (1048576 : Nat) ≤ 16 ^ l := by
      calc (1048576 : Nat) = 16 ^ 5 := by norm_num
        _ ≤ 16 ^ l := Nat.pow_le_pow_right (by norm_num) h
    have e8 : (2 : Nat) ^ 8 = 256 := by norm_num
    have e12 : (2 : Nat) ^ 12 = 4096 := by norm_num
    have e16 : (2 : Nat) ^ 16 = 65536 := by norm_num
    have e20 : (2 : Nat) ^ 20 = 1048576 := by norm_num
    unfold specTierOfLen
    rw [e8, e12, e16, e20]
    rw [if_neg (by omega), if_neg (by omega), if_neg (by omega), if_neg (by omega)]
    rw [show min (l - 1) 4 = 4 by omega]
    decide

/-- A valid `/validate-termination` report is exactly the record built from the
cleaned termination, whose length is between 1 and 8. -/
theorem validate_report_valid (s : String) (r : DifficultyReport)
    (hrep : validateTermination s = .report r) (hval : r.valid = true) :
    r = ⟨true, cleanTermination s,
      (difficultyOf (16 ^ (cleanTermination s).length)).1,
      (difficultyOf (16 ^ (cleanTermination s).length)).2, 8⟩ ∧
    1 ≤ (cleanTermination s).length ∧ (cleanTermination s).length ≤ 8 := by
  unfold validateTermination at hrep
  split at hrep
  · cases hrep
  · split at hrep
    · rename_i hvalid
      cases hrep
      refine ⟨rfl, ?_, ?_⟩ <;>
      · simp only [terminationIsValid, Bool.and_eq_true, decide_eq_true_eq] at hvalid
        omega
    · cases hrep
      simp at hval

/-- C8: the difficulty estimator maps `expectedAttempts = 16 ^ L` through the
fixed spec thresholds, every valid report's difficulty equals the spec tier of
its cleaned length, and the reported tier is monotone in the termination
length. -/
theorem difficulty_tiers_correct_and_monotone :
    (∀ l : Nat, (difficultyOf (16 ^ l)).1 = specTierOfLen l) ∧
    (∀ s r, validateTermination s = .report r → r.valid = true →
        r.difficulty = specTierOfLen (cleanTermination s).length) ∧
    (∀ s1 s2 r1 r2, validateTermination s1 = .report r1 → r1.valid = true →
        validateTermination s2 = .report r2 → r2.valid = true →
        (cleanTermination s1).length ≤ (cleanTermination s2).length →
        tierRank r1.difficulty ≤ tierRank r2.difficulty) := by
  have hdiff : ∀ s r, validateTermination s = .report r → r.valid = true →
      r.difficulty = specTierOfLen (cleanTermination s).length := by
    intro s r hrep hval
    obtain ⟨hr, -, -⟩ := validate_report_valid s r hrep hval
    rw [hr]
    exact difficultyOf_pow_eq_specTier _
  refine ⟨difficultyOf_pow_eq_specTier, hdiff, ?_⟩
  intro s1 s2 r1 r2 h1 v1 h2 v2 hlen
  rw [hdiff s1 r1 h1 v1, hdiff s2 r2 h2 v2, tierRank_specTier, tierRank_specTier]
  omega

/-- Witness for C8: the valid terminations `ab` (length 2, Easy) and `abcd`
(length 4, Hard) get monotone tiers. -/
theorem difficulty_tiers_witness :
    tierRank (DifficultyReport.mk true "ab" "Easy" "Few seconds" 8).difficulty ≤
      tierRank (DifficultyReport.mk true "abcd" "Hard" "Few hours" 8).difficulty :=
  difficulty_tiers_correct_and_monotone.2.2 "ab" "abcd"
    ⟨true, "ab", "Easy", "Few seconds", 8⟩ ⟨true, "abcd", "Hard", "Few hours", 8⟩
    rfl rfl rfl rfl (by decide)

/-! ### Claim C9 -/

/-- C9 counterexample: a 19-byte (wrong-length) deployer is not rejected:
`calculateCREATE2Address` silently returns an address computed from the
malformed input instead of failing with an InvalidInput error. -/
theorem derive_no_invalid_input_cex :
    (List.replicate 19 (0 : Nat)).length ≠ 20 ∧
    calculateCREATE2Address (List.replicate 19 0) (List.replicate 32 0)
      (List.replicate 32 0) = "0x91B07b3A10e84a2dcF8b680E8e130B1713851464" ∧
    (calculateCREATE2Address (List.replicate 19 0) (List.replicate 32 0)
      (List.replicate 32 0)).data.length = 42 :=
  ⟨by decide, by decide,
    calculateCREATE2Address_data_length (List.replicate 19 0) (List.replicate 32 0)
      (List.replicate 32 0)⟩

/-- C9 amended: `calculateCREATE2Address` performs no length validation at
all: on every input (well-formed or not) it returns, without truncating or
padding, the checksummed address obtained by hashing
`0xff || deployer || salt || bytecodeHash` exactly as supplied. -/
theorem derive_total_no_validation (d s h : List Nat) :
    calculateCREATE2Address d s h = create2Reference d s h ∧
    (calculateCREATE2Address d s h).data.length = 42 :=
  ⟨calculateCREATE2Address_eq_reference d s h, calculateCREATE2Address_data_length d s h⟩
